import Mathlib

/-!
Verification of the `chancacher` package (src/chancacher.go): a pipeline of
channels (In -> Out) with an in-memory buffer and an optional spill-to-disk
cache held in two files, `cache_a` (read side) and `cache_b` (write side).

The development is a shallow embedding of the Go source:

* the constructor `NewChanCacher` becomes `newChanCacher`, parameterised by an
  `FS` record that injects the outcomes of the filesystem calls it makes
  (`os.MkdirAll`, the two `os.OpenFile` calls, `cacheW.Stat()`);
* the pure accessors and mutators (`CacheHasData`, `BufferSize`, `CacheStart`,
  `CacheStop`, `cacheValue`) become Lean functions on a `ChanCacher` record;
* the decode loop inside `cacheHandler` becomes `cacheHandlerDecodeLoop`,
  a function from the sequence of decoder outcomes to the emitted items;
* the concurrent behaviour of the `run` goroutine, the `cacheHandler`
  goroutine, `Commit`, the producer and the consumer becomes a small-step
  interleaving transition system `Step` on machine states `MState`, with
  reachability `Reachable` and an inductive invariant `SysInv`.

The Go item type (an empty interface) is modelled by `Int`.
-/

/-- Items transported through the pipeline (Go `interface\x7b\x7d`). -/
abbrev Item := Int

/-- `const MaxDepth = 1000000` — the maximum channel depth. -/
def MaxDepth : Int := 1000000

/-- The depth adjustment performed at the top of `NewChanCacher`:
`if maxDepth == -1 || maxDepth > MaxDepth { maxDepth = MaxDepth }`.
Note that `maxDepth == 0` is NOT adjusted: `make(chan interface\x7b\x7d, 0)`
gives an unbuffered channel. -/
def clampDepth (maxDepth : Int) : Int :=
  if maxDepth = -1 ∨ maxDepth > MaxDepth then MaxDepth else maxDepth

/-- The sequential state of a `ChanCacher` as set up by `NewChanCacher`.
`outCap` is the capacity of the buffered channel `Out`;
`cachePausedClosed` records whether the `cachePaused` channel is closed
(closed ⇔ the spill gate is open, i.e. NOT paused);
`cacheFileB` abstracts the bytes the gob encoder appended to `cache_b`
as the list of successfully encoded items. -/
structure ChanCacher where
  outCap : Int
  cachePath : String
  cache : Bool
  cacheModified : Bool
  cacheReading : Bool
  cachePausedClosed : Bool
  cacheCommitted : Bool
  cacheFileB : List Item
  runDone : Bool
deriving Repr, DecidableEq

/-- Outcomes of the filesystem calls made by `NewChanCacher`:
whether `os.MkdirAll` fails, whether each `os.OpenFile` fails, whether
`cacheW.Stat()` itself errors, and the size `Stat` reports for `cache_b`. -/
structure FS where
  mkdirErr : Bool
  openAErr : Bool
  openBErr : Bool
  statErr : Bool
  sizeB : Nat
deriving Repr, DecidableEq

/-- How construction can fail to return a queue. `mkdirFailed` is the
explicit `return nil` after `os.MkdirAll` errors. `statNilPanic` models the
nil dereference at `fi.Size()`: when `cacheW.Stat()` returns an error
(including the `ErrInvalid` it returns when the `cache_b` open failed and
`cacheW` is nil), the error is only logged (`// TODO: log`), `fi` is nil,
and `fi.Size()` panics. -/
inductive NewErr where
  | mkdirFailed
  | statNilPanic
deriving Repr, DecidableEq

/-- Shallow embedding of `NewChanCacher(maxDepth int, cachePath string)`.
The open errors for `cache_a` and `cache_b` are only logged in the source
(`// TODO: log`) and do not abort construction; only `os.MkdirAll` failure
returns nil, and a failed `Stat` on `cacheW` (in particular after a failed
`cache_b` open) panics at `fi.Size()`. A non-empty `cache_b` sets
`cacheModified` (crash recovery). -/
def newChanCacher (maxDepth : Int) (cachePath : String) (fs : FS) :
    Except NewErr ChanCacher :=
  let d := clampDepth maxDepth
  let c : ChanCacher :=
    { outCap := d
      cachePath := cachePath
      cache := cachePath != ""
      cacheModified := false
      cacheReading := false
      cachePausedClosed := true     -- `close(c.cachePaused)`: start unpaused
      cacheCommitted := false
      cacheFileB := []
      runDone := false }
  if c.cache then
    if fs.mkdirErr then
      Except.error NewErr.mkdirFailed
    else
      -- `c.cacheR, err = os.OpenFile(..., "cache_a", ...)`: error only logged
      -- `c.cacheW, err = os.OpenFile(..., "cache_b", ...)`: error only logged
      -- `fi, err := c.cacheW.Stat()`: on error, `fi.Size()` dereferences nil
      if fs.openBErr ∨ fs.statErr then
        Except.error NewErr.statNilPanic
      else if fs.sizeB ≠ 0 then
        Except.ok { c with cacheModified := true }
      else
        Except.ok c
  else
    Except.ok c

/-- `CacheHasData`: `return c.cacheModified || c.cacheReading`. -/
def CacheHasData (c : ChanCacher) : Bool :=
  c.cacheModified || c.cacheReading

/-- `CacheStart`: no-op when `!c.cache`; otherwise, if `cachePaused` is
already closed the select receives and does nothing, else it closes the
channel (opening the spill gate). -/
def cacheStart (c : ChanCacher) : ChanCacher :=
  if !c.cache then c
  else if c.cachePausedClosed then c
  else { c with cachePausedClosed := true }

/-- `CacheStop`: no-op when `!c.cache`; otherwise, if `cachePaused` is
closed it is replaced by a fresh open channel (pausing spill), else
nothing happens. -/
def cacheStop (c : ChanCacher) : ChanCacher :=
  if !c.cache then c
  else if c.cachePausedClosed then { c with cachePausedClosed := false }
  else c

/-- `cacheValue`: encode `v` onto `cache_b` (an encode error is only logged,
`// TODO: log`, and the item is lost) and set `cacheModified = true`
unconditionally — the flag is set even when the encode failed.
`encodeOk` injects the outcome of `c.cacheEnc.Encode(&v)`. -/
def cacheValue (c : ChanCacher) (v : Item) (encodeOk : Bool) : ChanCacher :=
  { c with
    cacheFileB := if encodeOk then c.cacheFileB ++ [v] else c.cacheFileB
    cacheModified := true }

/-- One outcome of `dec.Decode(&v)` in the `cacheHandler` decode loop:
a decoded item, a decoded nil, or an error (any error, `io.EOF` or not,
breaks the loop). The file contents are abstracted as the list of
outcomes the decoder would produce; the end of the list is clean EOF. -/
inductive DecRes where
  | val (v : Item)
  | nilVal
  | decErr
deriving Repr, DecidableEq

/-- The inner decode loop of `cacheHandler`: repeatedly `dec.Decode(&v)`;
on any error, break (a non-EOF error is only logged, so the file is
treated as exhausted at that offset); decoded nils are skipped
(`if v == nil { continue }`); every other value is sent to `Out`.
Returns the sequence of items sent to `Out`. -/
def cacheHandlerDecodeLoop : List DecRes → List Item
  | [] => []
  | DecRes.decErr :: _ => []
  | DecRes.nilVal :: rest => cacheHandlerDecodeLoop rest
  | DecRes.val v :: rest => v :: cacheHandlerDecodeLoop rest

/-! ### Concrete instances used by witnesses -/

/-- A filesystem in which every call succeeds and `cache_b` is empty. -/
def fsOK : FS :=
  { mkdirErr := false, openAErr := false, openBErr := false,
    statErr := false, sizeB := 0 }

/-- Whether construction returned a queue (rather than nil / a panic). -/
def returnsQueue (r : Except NewErr ChanCacher) : Bool :=
  match r with
  | Except.ok _ => true
  | Except.error _ => false

/-! ### C4 — the pending-spill predicate -/

/-- C4: for every state of the queue, `CacheHasData()` returns true if and
only if `cacheModified` is true or `cacheReading` is true. -/
theorem cacheHasData_iff_modified_or_reading (c : ChanCacher) :
    CacheHasData c = true ↔ (c.cacheModified = true ∨ c.cacheReading = true) := by
  simp [CacheHasData]

/-! ### C2 — depth clamping -/

/-- C2 counterexample: constructing with `maxDepth == 0` yields an Output
capacity of 0 (an unbuffered channel), not `MaxDepth = 1000000`: the source
only adjusts `maxDepth == -1` and `maxDepth > MaxDepth`. -/
theorem depth_zero_not_clamped_cex :
    newChanCacher 0 "" fsOK = Except.ok
      { outCap := 0, cachePath := "", cache := false, cacheModified := false,
        cacheReading := false, cachePausedClosed := true,
        cacheCommitted := false, cacheFileB := [], runDone := false }
    ∧ (0 : Int) ≠ MaxDepth := by
  exact ⟨rfl, by decide⟩

/-- C2 amended: the constructor clamps `maxDepth == -1` and
`maxDepth > MaxDepth` to `MaxDepth = 1000000`; `maxDepth == 0` is left
unchanged, so the Output buffer capacity after construction with
`maxDepth == 0` is 0 (unbuffered). -/
theorem outCap_clamping (m : Int) (p : String) (fs : FS) (c : ChanCacher)
    (hok : newChanCacher m p fs = Except.ok c) :
    c.outCap = clampDepth m
    ∧ ((m = -1 ∨ m > MaxDepth) → c.outCap = MaxDepth)
    ∧ (m = 0 → c.outCap = 0) := by
  have hcap : c.outCap = clampDepth m := by
    simp only [newChanCacher] at hok
    split_ifs at hok <;>
      first
        | exact Except.noConfusion hok
        | (injection hok with h; subst h; rfl)
  refine ⟨hcap, fun h => ?_, fun h => ?_⟩
  · rw [hcap, clampDepth, if_pos h]
  · subst h
    rw [hcap]
    decide

/-- Witness for `outCap_clamping` at `maxDepth = -1`. -/
theorem outCap_clamping_witness :
    ({ outCap := MaxDepth, cachePath := "", cache := false,
       cacheModified := false, cacheReading := false,
       cachePausedClosed := true, cacheCommitted := false,
       cacheFileB := [], runDone := false } : ChanCacher).outCap = MaxDepth :=
  (outCap_clamping (-1) "" fsOK _ rfl).2.1 (Or.inl rfl)

/-! ### C3 — startup file-open failures -/

/-- C3 counterexample: with a failing open of `cache_a` (and everything else
succeeding), `NewChanCacher` still returns a queue — the open error is only
logged (`// TODO: log`), so construction is not fatal. -/
theorem open_a_failure_not_fatal_cex :
    returnsQueue
      (newChanCacher 5 "dir"
        { mkdirErr := false, openAErr := true, openBErr := false,
          statErr := false, sizeB := 0 }) = true := by
  rfl

/-- C3 amended: only a directory-creation failure makes construction return
nil. A `cache_a` open failure is merely logged and construction returns a
usable queue; a `cache_b` open failure (or a failing `Stat`) leads to a nil
`FileInfo` dereference panic at the startup `fi.Size()` check rather than a
nil return. -/
theorem construction_failure_modes (m : Int) (p : String) (fs : FS)
    (hp : p ≠ "") :
    (fs.mkdirErr = true →
      newChanCacher m p fs = Except.error NewErr.mkdirFailed)
    ∧ (fs.mkdirErr = false ∧ fs.openBErr = false ∧ fs.statErr = false →
      returnsQueue (newChanCacher m p fs) = true)
    ∧ (fs.mkdirErr = false ∧ (fs.openBErr = true ∨ fs.statErr = true) →
      newChanCacher m p fs = Except.error NewErr.statNilPanic) := by
  have hc : (p != "") = true := by simpa using hp
  refine ⟨fun h => ?_, fun h => ?_, fun h => ?_⟩
  · simp [newChanCacher, hc, h]
  · obtain ⟨h1, h2, h3⟩ := h
    rcases eq_or_ne fs.sizeB 0 with h4 | h4 <;>
      simp [newChanCacher, returnsQueue, hc, h1, h2, h3, h4]
  · obtain ⟨h1, h2⟩ := h
    simp only [newChanCacher, hc, if_true, h1, if_false]
    rcases h2 with h2 | h2 <;> simp [h2]

/-- Witness for `construction_failure_modes`: a failing `MkdirAll` on a
non-empty path returns no queue. -/
theorem construction_failure_modes_witness :
    newChanCacher 3 "dir"
      { mkdirErr := true, openAErr := false, openBErr := false,
        statErr := false, sizeB := 0 } = Except.error NewErr.mkdirFailed :=
  (construction_failure_modes 3 "dir"
    { mkdirErr := true, openAErr := false, openBErr := false,
      statErr := false, sizeB := 0 } (by decide)).1 rfl

/-! ### C5 — the Drainer decode loop -/

/-- C5: in the decode loop of `cacheHandler`, a decode error stops decoding
at that offset (everything after it, in particular any tail partial record,
is discarded and the file is treated as exhausted there), decoded nils are
skipped rather than sent to Out, and decoded values are sent to Out. -/
theorem decode_error_exhausts_nil_skipped :
    (∀ l1 l2 : List DecRes, DecRes.decErr ∉ l1 →
      cacheHandlerDecodeLoop (l1 ++ DecRes.decErr :: l2) =
        cacheHandlerDecodeLoop l1)
    ∧ (∀ l : List DecRes,
        cacheHandlerDecodeLoop (DecRes.nilVal :: l) = cacheHandlerDecodeLoop l)
    ∧ (∀ (v : Item) (l : List DecRes),
        cacheHandlerDecodeLoop (DecRes.val v :: l) =
          v :: cacheHandlerDecodeLoop l) := by
  refine ⟨?_, fun l => rfl, fun v l => rfl⟩
  intro l1
  induction l1 with
  | nil => intro l2 _; rfl
  | cons r rest ih =>
    intro l2 hmem
    cases r with
    | val v => simp [cacheHandlerDecodeLoop, ih l2 (by simp_all)]
    | nilVal => simp [cacheHandlerDecodeLoop, ih l2 (by simp_all)]
    | decErr => simp_all

/-- Witness for `decode_error_exhausts_nil_skipped`: a decode error after
`7, nil` discards the tail `9`. -/
theorem decode_error_exhausts_nil_skipped_witness :
    cacheHandlerDecodeLoop
      ([DecRes.val 7, DecRes.nilVal] ++ DecRes.decErr :: [DecRes.val 9]) =
      cacheHandlerDecodeLoop [DecRes.val 7, DecRes.nilVal] :=
  decode_error_exhausts_nil_skipped.1
    [DecRes.val 7, DecRes.nilVal] [DecRes.val 9] (by decide)

/-! ### C6 — crash recovery marks the write cache -/

/-- C6: constructing on a directory whose `cache_b` is non-empty sets
`cacheModified = true` at startup; an empty `cache_b` leaves it false. -/
theorem residual_cache_b_sets_modified (m : Int) (p : String) (fs : FS)
    (c : ChanCacher) (hp : p ≠ "")
    (hok : newChanCacher m p fs = Except.ok c) :
    (fs.sizeB ≠ 0 → c.cacheModified = true)
    ∧ (fs.sizeB = 0 → c.cacheModified = false) := by
  have hc : (p != "") = true := by simpa using hp
  simp only [newChanCacher] at hok
  split_ifs at hok <;>
    first
      | exact Except.noConfusion hok
      | (injection hok with h; subst h;
         refine ⟨fun h4 => ?_, fun h4 => ?_⟩ <;> simp_all)

/-- Witness for `residual_cache_b_sets_modified`: a 3-byte `cache_b` sets
`cacheModified` at startup. -/
theorem residual_cache_b_sets_modified_witness :
    ({ outCap := 2, cachePath := "d", cache := true, cacheModified := true,
       cacheReading := false, cachePausedClosed := true,
       cacheCommitted := false, cacheFileB := [],
       runDone := false } : ChanCacher).cacheModified = true :=
  (residual_cache_b_sets_modified 2 "d"
    { mkdirErr := false, openAErr := false, openBErr := false,
      statErr := false, sizeB := 3 } _ (by simp) rfl).1 (by decide)

/-! ### C7 — pause-gate idempotence -/

/-- Concrete queue with spill disabled, used by witnesses. -/
def cNoCache : ChanCacher :=
  { outCap := 1, cachePath := "", cache := false, cacheModified := false,
    cacheReading := false, cachePausedClosed := true, cacheCommitted := false,
    cacheFileB := [], runDone := false }

/-- C7: `CacheStart` and `CacheStop` are idempotent, and both are no-ops
that change no state when spill is disabled. -/
theorem pause_resume_idempotent (c : ChanCacher) :
    cacheStart (cacheStart c) = cacheStart c
    ∧ cacheStop (cacheStop c) = cacheStop c
    ∧ (c.cache = false → cacheStart c = c ∧ cacheStop c = c) := by
  obtain ⟨a1, a2, a3, a4, a5, a6, a7, a8, a9⟩ := c
  cases a3 <;> cases a6 <;> simp [cacheStart, cacheStop]

/-- Witness for `pause_resume_idempotent` on a spill-disabled queue. -/
theorem pause_resume_idempotent_witness :
    cacheStart cNoCache = cNoCache ∧ cacheStop cNoCache = cNoCache :=
  (pause_resume_idempotent cNoCache).2.2 rfl

/-! ### C9 — the spill write path on encode failure -/

/-- C9: `cacheValue` sets `cacheModified` unconditionally, so after a failed
encode `CacheHasData()` reports pending spill data although nothing was
appended to `cache_b`. -/
theorem cacheValue_sets_modified_even_on_encode_failure
    (c : ChanCacher) (v : Item) (encodeOk : Bool) :
    (cacheValue c v encodeOk).cacheModified = true
    ∧ CacheHasData (cacheValue c v encodeOk) = true
    ∧ (encodeOk = false →
        (cacheValue c v encodeOk).cacheFileB = c.cacheFileB) := by
  refine ⟨rfl, by simp [CacheHasData, cacheValue], fun h => by simp [cacheValue, h]⟩

/-- Witness for `cacheValue_sets_modified_even_on_encode_failure` at a
failing encode of the item 5. -/
theorem cacheValue_sets_modified_even_on_encode_failure_witness :
    CacheHasData (cacheValue cNoCache 5 false) = true
    ∧ (cacheValue cNoCache 5 false).cacheFileB = cNoCache.cacheFileB :=
  ⟨(cacheValue_sets_modified_even_on_encode_failure cNoCache 5 false).2.1,
   (cacheValue_sets_modified_even_on_encode_failure cNoCache 5 false).2.2 rfl⟩

/-! ### The interleaving machine

The concurrent behaviour of one `ChanCacher` is modelled as a small-step
transition system over `MState`. The goroutines are `run` (started by the
constructor), `cacheHandler` (started only when a cache path was given),
plus the externally driven producer, consumer, pause-gate calls and
`Commit`. Channel operations are modelled as usual: a send to the buffered
channel `Out` requires free buffer space, a rendezvous handoff requires an
empty buffer with a blocked receiver, a receive from a closed-but-non-empty
buffered channel still yields data. Each step is one atomic action of one
task; consecutive actions of the same task that other tasks cannot observe
in between are merged. -/

/-- Program counter of the `run` goroutine. -/
inductive RunPC where
  | inLoop      -- inside `for v := range c.In`
  | spillSel    -- the inner select between `c.Out <- v` and `<-c.cachePaused`
  | waitDrain   -- `for c.CacheHasData() && !c.cacheCommitted`
  | waitAck     -- after `c.finishCache()`, blocked on `<-c.cacheAck`
  | finished    -- after `close(c.Out)`
deriving Repr, DecidableEq

/-- Program counter of the `cacheHandler` goroutine. -/
inductive HandlerPC where
  | start       -- goroutine created but `c.cacheReading = true` not yet run
  | reading     -- the decode loop over `cacheR`
  | checkDone   -- the select on `c.cacheDone` after the decode loop
  | waitWrite   -- `for !c.cacheModified` after seek/truncate of `cacheR`
  | exited      -- after `close(c.cacheAck)` and return
deriving Repr, DecidableEq

/-- Program counter of `Commit`. -/
inductive CommitPC where
  | notCalled
  | draining    -- the `for !c.runDone || len(c.Out) != 0 || !readerStopped` loop
  | finished    -- after `c.cacheCommitted = true`
deriving Repr, DecidableEq

/-- A machine state: the shared flags of the `ChanCacher` plus the program
counters of the tasks. `inQ`/`outLen` are the number of buffered items in
`In`/`Out` (`In` is unbuffered, so `inQ` is 0 or 1 — not needed for the
invariants proved here, so not enforced). `drainObserved` is a history
variable: it becomes true exactly when the shutdown wait loop in `run`
observes `CacheHasData() == false or cacheCommitted` and exits. -/
structure MState where
  cache : Bool
  outCap : Nat
  inClosed : Bool
  inQ : Nat
  outLen : Nat
  outClosed : Bool
  cacheModified : Bool
  cacheReading : Bool
  cachePausedClosed : Bool
  cacheCommitted : Bool
  cacheDoneClosed : Bool
  cacheAckClosed : Bool
  runDone : Bool
  runPC : RunPC
  hPC : HandlerPC
  cPC : CommitPC
  commitReaderStopped : Bool
  drainObserved : Bool
deriving Repr, DecidableEq

/-- `CacheHasData()` read on a machine state. -/
def cacheHasDataS (s : MState) : Bool :=
  s.cacheModified || s.cacheReading

/-- `BufferSize()` read on a machine state: `len(c.Out)`. -/
def bufferSizeS (s : MState) : Nat :=
  s.outLen

/-- The machine state right after `NewChanCacher` returns a queue `c`:
both goroutines at their entry points, channels empty and open,
`cacheModified` carried over from the recovery check. -/
def initOf (c : ChanCacher) : MState :=
  { cache := c.cache
    outCap := c.outCap.toNat
    inClosed := false
    inQ := 0
    outLen := 0
    outClosed := false
    cacheModified := c.cacheModified
    cacheReading := false
    cachePausedClosed := c.cachePausedClosed
    cacheCommitted := false
    cacheDoneClosed := false
    cacheAckClosed := false
    runDone := false
    runPC := RunPC.inLoop
    hPC := HandlerPC.start
    cPC := CommitPC.notCalled
    commitReaderStopped := false
    drainObserved := false }

/-- One interleaving step. Each constructor is one atomic action of the
producer, the consumer, a pause-gate caller, `run`, `cacheHandler` or
`Commit`, with its enabling condition taken from the source. -/
inductive Step : MState → MState → Prop where
  /-- Producer sends a value into `In` (modelled with a transfer buffer). -/
  | inSend (s : MState) (h : s.inClosed = false) :
      Step s { s with inQ := s.inQ + 1 }
  /-- Producer closes `In`. -/
  | inClose (s : MState) (h : s.inClosed = false) :
      Step s { s with inClosed := true }
  /-- Consumer receives a buffered value from `Out` (possible even after
  `close(c.Out)` while the buffer is non-empty). -/
  | outRecv (s : MState) (h : 0 < s.outLen) :
      Step s { s with outLen := s.outLen - 1 }
  /-- `CacheStart()` on a cached queue: ensure `cachePaused` is closed. -/
  | gateOpen (s : MState) (h : s.cache = true) :
      Step s { s with cachePausedClosed := true }
  /-- `CacheStop()` on a cached queue: ensure `cachePaused` is a fresh
  open channel. -/
  | gateClose (s : MState) (h : s.cache = true) :
      Step s { s with cachePausedClosed := false }
  /-- `run`: take `v` from `In` and buffer it in `Out` (the non-blocking
  fast path, or the blocking send once space appears). -/
  | runSendBuf (s : MState) (h1 : s.runPC = RunPC.inLoop) (h2 : 0 < s.inQ)
      (h3 : s.outLen < s.outCap) :
      Step s { s with inQ := s.inQ - 1, outLen := s.outLen + 1 }
  /-- `run`: take `v` from `In` and hand it directly to a consumer blocked
  on an empty `Out` (rendezvous; the only delivery mode when `outCap = 0`). -/
  | runRendezvous (s : MState) (h1 : s.runPC = RunPC.inLoop) (h2 : 0 < s.inQ)
      (h3 : s.outLen = 0) :
      Step s { s with inQ := s.inQ - 1 }
  /-- `run`: take `v` from `In` and hand it directly to `Commit`, which is
  blocked receiving on an empty `Out`; `Commit` then calls `cacheValue(v)`. -/
  | runCommitHandoff (s : MState) (h1 : s.runPC = RunPC.inLoop)
      (h2 : 0 < s.inQ) (h3 : s.outLen = 0) (h4 : s.cPC = CommitPC.draining) :
      Step s { s with inQ := s.inQ - 1, cacheModified := true }
  /-- `run`, caching enabled: the non-blocking send hit a full buffer, so
  enter the select between `c.Out <- v` and `<-c.cachePaused`. -/
  | runFullToSelect (s : MState) (h1 : s.runPC = RunPC.inLoop)
      (h2 : 0 < s.inQ) (h3 : s.cache = true) (h4 : s.outLen = s.outCap) :
      Step s { s with inQ := s.inQ - 1, runPC := RunPC.spillSel }
  /-- `run` in the select: the buffer drained, deliver `v` to `Out`. -/
  | runSelectSend (s : MState) (h1 : s.runPC = RunPC.spillSel)
      (h2 : s.outLen < s.outCap) :
      Step s { s with outLen := s.outLen + 1, runPC := RunPC.inLoop }
  /-- `run` in the select: hand `v` directly to a blocked consumer. -/
  | runSelectRendezvous (s : MState) (h1 : s.runPC = RunPC.spillSel)
      (h2 : s.outLen = 0) :
      Step s { s with runPC := RunPC.inLoop }
  /-- `run` in the select: hand `v` directly to a blocked `Commit`. -/
  | runSelectCommitHandoff (s : MState) (h1 : s.runPC = RunPC.spillSel)
      (h2 : s.outLen = 0) (h3 : s.cPC = CommitPC.draining) :
      Step s { s with cacheModified := true, runPC := RunPC.inLoop }
  /-- `run` in the select: `cachePaused` is closed (gate open), so call
  `c.cacheValue(v)`: the encode may fail (only logged), `cacheModified`
  is set either way. -/
  | runSelectSpill (s : MState) (h1 : s.runPC = RunPC.spillSel)
      (h2 : s.cachePausedClosed = true) :
      Step s { s with cacheModified := true, runPC := RunPC.inLoop }
  /-- `run`, no cache: `In` is closed and drained, so the range loop ends,
  `runDone` is set, the cache block is skipped and `Out` is closed. -/
  | runExitNoCache (s : MState) (h1 : s.runPC = RunPC.inLoop)
      (h2 : s.inClosed = true) (h3 : s.inQ = 0) (h4 : s.cache = false) :
      Step s { s with runDone := true, outClosed := true,
                      runPC := RunPC.finished }
  /-- `run`, cache enabled: the range loop ends, `runDone` is set and the
  shutdown wait loop `for c.CacheHasData() && !c.cacheCommitted` begins. -/
  | runExitCache (s : MState) (h1 : s.runPC = RunPC.inLoop)
      (h2 : s.inClosed = true) (h3 : s.inQ = 0) (h4 : s.cache = true) :
      Step s { s with runDone := true, runPC := RunPC.waitDrain }
  /-- `run`: the shutdown wait loop observes
  `!(CacheHasData() && !cacheCommitted)` and exits; `c.finishCache()`
  closes `cacheDone`. The history variable records the observation. -/
  | runWaitExit (s : MState) (h1 : s.runPC = RunPC.waitDrain)
      (h2 : cacheHasDataS s = false ∨ s.cacheCommitted = true) :
      Step s { s with runPC := RunPC.waitAck, cacheDoneClosed := true,
                      drainObserved := true }
  /-- `run`: `<-c.cacheAck` returns because `cacheHandler` closed it;
  `close(c.Out)`. -/
  | runAckRecv (s : MState) (h1 : s.runPC = RunPC.waitAck)
      (h2 : s.cacheAckClosed = true) :
      Step s { s with outClosed := true, runPC := RunPC.finished }
  /-- `cacheHandler` starts: `c.cacheReading = true`. -/
  | hStart (s : MState) (h1 : s.hPC = HandlerPC.start) (h2 : s.cache = true) :
      Step s { s with cacheReading := true, hPC := HandlerPC.reading }
  /-- `cacheHandler` decodes an item from `cacheR` and buffers it in `Out`. -/
  | hSendBuf (s : MState) (h1 : s.hPC = HandlerPC.reading)
      (h2 : s.outLen < s.outCap) :
      Step s { s with outLen := s.outLen + 1 }
  /-- `cacheHandler` decodes an item and hands it directly to `Commit`,
  which is blocked receiving on an empty `Out`. -/
  | hCommitHandoff (s : MState) (h1 : s.hPC = HandlerPC.reading)
      (h2 : s.outLen = 0) (h3 : s.cPC = CommitPC.draining) :
      Step s { s with cacheModified := true }
  /-- `cacheHandler`: `dec.Decode` returns an error (clean EOF or not: a
  non-EOF error is only logged, the file is exhausted at that offset);
  `c.cacheReading = false`. -/
  | hEOF (s : MState) (h1 : s.hPC = HandlerPC.reading) :
      Step s { s with cacheReading := false, hPC := HandlerPC.checkDone }
  /-- `cacheHandler`: the select sees `cacheDone` closed: `close(cacheAck)`
  and return. -/
  | hDoneAtCheck (s : MState) (h1 : s.hPC = HandlerPC.checkDone)
      (h2 : s.cacheDoneClosed = true) :
      Step s { s with cacheAckClosed := true, hPC := HandlerPC.exited }
  /-- `cacheHandler`: `cacheDone` not closed, take the default branch,
  seek and truncate `cacheR`, and start polling `cacheModified`. -/
  | hTruncateContinue (s : MState) (h1 : s.hPC = HandlerPC.checkDone)
      (h2 : s.cacheDoneClosed = false) :
      Step s { s with hPC := HandlerPC.waitWrite }
  /-- `cacheHandler` polling for write data: `cacheDone` closed, so
  `close(cacheAck)` and return. -/
  | hDoneAtWait (s : MState) (h1 : s.hPC = HandlerPC.waitWrite)
      (h2 : s.cacheDoneClosed = true) :
      Step s { s with cacheAckClosed := true, hPC := HandlerPC.exited }
  /-- `cacheHandler`: `cacheModified` is set, so swap `cacheR`/`cacheW`
  under the lock, reset the encoder, `cacheModified = false`,
  `cacheReading = true`, and decode again. -/
  | hSwap (s : MState) (h1 : s.hPC = HandlerPC.waitWrite)
      (h2 : s.cacheModified = true) :
      Step s { s with cacheModified := false, cacheReading := true,
                      hPC := HandlerPC.reading }
  /-- `Commit()` without a cache: set `cacheCommitted` and return. -/
  | commitNoCache (s : MState) (h1 : s.cPC = CommitPC.notCalled)
      (h2 : s.cache = false) :
      Step s { s with cacheCommitted := true, cPC := CommitPC.finished }
  /-- `Commit()` with a cache: `c.finishCache()` closes `cacheDone`, then
  the drain-back loop begins. -/
  | commitStart (s : MState) (h1 : s.cPC = CommitPC.notCalled)
      (h2 : s.cache = true) :
      Step s { s with cacheDoneClosed := true, cPC := CommitPC.draining }
  /-- `Commit` loop: `<-c.cacheAck` fires; the reader has stopped. -/
  | commitAck (s : MState) (h1 : s.cPC = CommitPC.draining)
      (h2 : s.cacheAckClosed = true) :
      Step s { s with commitReaderStopped := true }
  /-- `Commit` loop: receive a buffered `v` from `Out` and `cacheValue(v)`
  it back to disk (`cacheModified` set whether or not the encode worked). -/
  | commitRecv (s : MState) (h1 : s.cPC = CommitPC.draining)
      (h2 : 0 < s.outLen) :
      Step s { s with outLen := s.outLen - 1, cacheModified := true }
  /-- `Commit` loop exit: `runDone`, `Out` empty and the reader stopped;
  close the files and set `cacheCommitted`. -/
  | commitFinish (s : MState) (h1 : s.cPC = CommitPC.draining)
      (h2 : s.runDone = true) (h3 : s.outLen = 0)
      (h4 : s.commitReaderStopped = true) :
      Step s { s with cacheCommitted := true, cPC := CommitPC.finished }

/-- Reachability from a start state by interleaving steps. -/
inductive Reachable (s0 : MState) : MState → Prop where
  | refl : Reachable s0 s0
  | tail {s t : MState} : Reachable s0 s → Step s t → Reachable s0 t

/-- The inductive invariant of the machine. -/
def SysInv (s : MState) : Prop :=
  s.outLen ≤ s.outCap
  ∧ (s.cache = false →
      s.cacheModified = false ∧ s.cacheReading = false
      ∧ s.hPC = HandlerPC.start ∧ s.runPC ≠ RunPC.spillSel)
  ∧ (s.cPC = CommitPC.draining → s.cache = true)
  ∧ ((s.runPC = RunPC.waitDrain ∨ s.runPC = RunPC.waitAck
      ∨ s.runPC = RunPC.finished) → s.inClosed = true)
  ∧ (s.runPC = RunPC.waitAck → s.drainObserved = true)
  ∧ (s.runPC = RunPC.finished → s.drainObserved = true ∨ s.cache = false)
  ∧ (s.outClosed = true → s.runPC = RunPC.finished)

/-- Every step preserves the invariant. -/
theorem step_preserves_inv {s t : MState} (hinv : SysInv s) (hst : Step s t) :
    SysInv t := by
  obtain ⟨h1, h2, h3, h4, h5, h6, h7⟩ := hinv
  cases hst <;>
    (refine ⟨?_, ?_, ?_, ?_, ?_, ?_, ?_⟩ <;> intros <;> simp_all [SysInv] <;> omega)

/-- The invariant holds in every state reachable from an invariant state. -/
theorem reachable_inv {s0 s : MState} (h0 : SysInv s0) (hr : Reachable s0 s) :
    SysInv s := by
  induction hr with
  | refl => exact h0
  | tail hr hst ih => exact step_preserves_inv ih hst

/-- `outCap` and `cache` are constants of the machine. -/
theorem reachable_const {s0 s : MState} (hr : Reachable s0 s) :
    s.outCap = s0.outCap ∧ s.cache = s0.cache := by
  induction hr with
  | refl => exact ⟨rfl, rfl⟩
  | tail hr hst ih => cases hst <;> simpa using ih

/-- Every successful construction has `outCap = clampDepth maxDepth`. -/
theorem newChanCacher_ok_outCap {m : Int} {p : String} {fs : FS}
    {c : ChanCacher} (hok : newChanCacher m p fs = Except.ok c) :
    c.outCap = clampDepth m := by
  simp only [newChanCacher] at hok
  split_ifs at hok <;>
    first
      | exact Except.noConfusion hok
      | (injection hok with h; subst h; rfl)

/-- Every successful construction has `cache = (cachePath != "")`, and a
construction without a cache starts with `cacheModified = false`. -/
theorem newChanCacher_ok_cache {m : Int} {p : String} {fs : FS}
    {c : ChanCacher} (hok : newChanCacher m p fs = Except.ok c) :
    c.cache = (p != "") ∧ (c.cache = false → c.cacheModified = false) := by
  simp only [newChanCacher] at hok
  split_ifs at hok <;>
    first
      | exact Except.noConfusion hok
      | (injection hok with h; subst h; exact ⟨rfl, by simp_all⟩)

/-- The initial machine state of any successfully constructed queue
satisfies the invariant. -/
theorem initOf_inv {m : Int} {p : String} {fs : FS} {c : ChanCacher}
    (hok : newChanCacher m p fs = Except.ok c) : SysInv (initOf c) := by
  have hmod := (newChanCacher_ok_cache hok).2
  refine ⟨Nat.zero_le _, fun hc => ⟨hmod hc, rfl, rfl, by simp [initOf]⟩,
    ?_, ?_, ?_, ?_, ?_⟩ <;> simp [initOf]

/-! ### C1 — Out is closed only after In is closed and the spill drained -/

/-- C1: in every execution, `run()` closes `Out` only after `In` is closed,
and only after the shutdown path observed that `CacheHasData()` had become
false or `cacheCommitted` was set (`drainObserved` records exactly that
observation; without a cache, `CacheHasData()` is false at the close
itself). `Out` is not closed before that. -/
theorem out_closed_only_after_drain (m : Int) (p : String) (fs : FS)
    (c : ChanCacher) (s : MState)
    (hok : newChanCacher m p fs = Except.ok c)
    (hr : Reachable (initOf c) s) (hclosed : s.outClosed = true) :
    s.inClosed = true ∧ (s.drainObserved = true ∨ cacheHasDataS s = false) := by
  obtain ⟨-, h2, -, h4, -, h6, h7⟩ := reachable_inv (initOf_inv hok) hr
  have hpc := h7 hclosed
  refine ⟨h4 (Or.inr (Or.inr hpc)), ?_⟩
  rcases h6 hpc with h | h
  · exact Or.inl h
  · obtain ⟨hm, hrd, -, -⟩ := h2 h
    simp [cacheHasDataS, hm, hrd]

/-- The machine state reached by the C1 witness trace: the producer closes
`In`, then `run` exits its range loop and closes `Out`. -/
def closedNoCacheState : MState :=
  { initOf cNoCache with
    inClosed := true
    runDone := true
    outClosed := true
    runPC := RunPC.finished }

/-- Witness for `out_closed_only_after_drain`: a spill-disabled queue whose
producer closes `In`, after which `run` closes `Out`. -/
theorem out_closed_only_after_drain_witness :
    closedNoCacheState.inClosed = true
    ∧ (closedNoCacheState.drainObserved = true
       ∨ cacheHasDataS closedNoCacheState = false) :=
  out_closed_only_after_drain 1 "" fsOK cNoCache closedNoCacheState rfl
    (Reachable.tail
      (Reachable.tail Reachable.refl (Step.inClose (initOf cNoCache) rfl))
      (Step.runExitNoCache { initOf cNoCache with inClosed := true }
        rfl rfl rfl rfl))
    rfl

/-! ### C8 — the Output buffer is bounded by the configured depth -/

/-- C8: at every observation point of every execution, `BufferSize()` never
exceeds the depth established at construction (the clamped `maxDepth`,
which is the capacity of `Out`). -/
theorem bufferSize_never_exceeds_depth (m : Int) (p : String) (fs : FS)
    (c : ChanCacher) (s : MState)
    (hok : newChanCacher m p fs = Except.ok c)
    (hr : Reachable (initOf c) s) :
    bufferSizeS s ≤ (clampDepth m).toNat := by
  have hle := (reachable_inv (initOf_inv hok) hr).1
  have hcap := (reachable_const hr).1
  have : (initOf c).outCap = (clampDepth m).toNat := by
    simp [initOf, newChanCacher_ok_outCap hok]
  rw [bufferSizeS]
  omega

/-- Witness for `bufferSize_never_exceeds_depth` at the initial state of a
freshly constructed queue of depth 1. -/
theorem bufferSize_never_exceeds_depth_witness :
    bufferSizeS (initOf cNoCache) ≤ (clampDepth 1).toNat :=
  bufferSize_never_exceeds_depth 1 "" fsOK cNoCache _ rfl Reachable.refl

/-! ### C10 — spill disabled means never any pending spill -/

/-- C10: a queue constructed with an empty `cachePath` has
`CacheHasData() == false` in every reachable state: the handler is never
started and the spill write path is never taken, so neither
`cacheModified` nor `cacheReading` is ever set. -/
theorem spill_disabled_never_pending (m : Int) (fs : FS) (c : ChanCacher)
    (s : MState) (hok : newChanCacher m "" fs = Except.ok c)
    (hr : Reachable (initOf c) s) :
    cacheHasDataS s = false := by
  have hc : c.cache = false := by
    simpa using (newChanCacher_ok_cache hok).1
  have hcs : s.cache = false := by
    rw [(reachable_const hr).2]
    simpa [initOf] using hc
  obtain ⟨-, h2, -⟩ := reachable_inv (initOf_inv hok) hr
  obtain ⟨hm, hrd, -, -⟩ := h2 hcs
  simp [cacheHasDataS, hm, hrd]

/-- Witness for `spill_disabled_never_pending` after one producer send on a
spill-disabled queue. -/
theorem spill_disabled_never_pending_witness :
    cacheHasDataS { initOf cNoCache with inQ := 1 } = false :=
  spill_disabled_never_pending 1 fsOK cNoCache _ rfl
    (Reachable.tail Reachable.refl (Step.inSend (initOf cNoCache) rfl))
